import Mathlib

/-!
# Verification of the Chama metadata reconciliation core

Shallow embedding of the metadata reconciliation engine of
`laborit_etl_mapper` (Chama domain): the name normalizers, the
ETL-vs-Storage (S3) reconciler, the ETL-vs-SystemUsage reconciler, the
system-usage loader and the consolidator, together with theorems settling
the specification's claims about them.

JSON documents are embedded as typed records; a JSON value that the code
reads with `dict.get(key, default)` is modelled as an `Option`, with
`none` standing for an absent-or-null value.  Python `dict`s built by the
code are modelled as association lists with Python's assignment
semantics: assigning to an existing key replaces the value in place,
assigning a fresh key appends it (`upsert` below), which preserves both
insertion order and key uniqueness exactly as CPython dictionaries do.
Python `set`s are modelled as `Finset`.  The impure fringes of the
services (file loading, `datetime.now()` stamps, `print` logging and
JSON persistence) are outside the embedded core, which mirrors the pure
document-to-document computation of each `compare_metadatas` /
`consolidate` body.
-/

namespace LaboritEtlMapper

/-- Python dict assignment `m[k] = v` on an (ordered) dict represented as
an association list: replace in place when the key exists, append
otherwise. -/
def upsert {α : Type} (m : List (String × α)) (k : String) (v : α) :
    List (String × α) :=
  if m.any (fun p => p.1 == k) then
    m.map (fun p => if p.1 == k then (k, v) else p)
  else m ++ [(k, v)]

/-- Python `m.get(k)` on a dict represented as an association list. -/
def alookup {α : Type} (m : List (String × α)) (k : String) : Option α :=
  (m.find? (fun p => p.1 == k)).map (fun p => p.2)

/-- Python `m.keys()` of a dict represented as an association list. -/
def keysOf {α : Type} (m : List (String × α)) : List String :=
  m.map Prod.fst

/-- Python `s.lower()`: lower-case every character (executable model of
`String.toLower`, written over the character list so that the kernel can
evaluate it). -/
def py_lower (s : String) : String :=
  String.mk (s.data.map Char.toLower)

/-- Python `s.strip()`: drop leading and trailing whitespace (executable
model of `String.trim` over the character list). -/
def py_strip (s : String) : String :=
  String.mk
    (((s.data.dropWhile Char.isWhitespace).reverse.dropWhile
        Char.isWhitespace).reverse)

/-- Lexicographic comparison of character lists by code point, the order
Python uses to compare strings. -/
def list_char_le : List Char → List Char → Bool
  | [], _ => true
  | _ :: _, [] => false
  | c :: a, d :: b =>
    if c.toNat < d.toNat then true
    else if d.toNat < c.toNat then false
    else list_char_le a b

/-- Python's `<=` on strings: lexicographic by code point. -/
def py_str_le (a b : String) : Bool :=
  list_char_le a.data b.data

/-- A field entry of an ETL (or S3) metadata document:
`{from_santander, laborit, type}`, every value read with
`field.get(..., '')` by the services, hence optional. -/
structure EtlField where
  from_santander : Option String
  laborit : Option String
  type : Option String
deriving DecidableEq

/-- A mapping entry `{map, table, fields}` of a metadata document. -/
structure EtlMapping where
  map : Option String
  table : Option String
  fields : List EtlField
deriving DecidableEq

/-- A file entry `{name, mappings}` of a metadata document. -/
structure EtlFile where
  name : String
  mappings : List EtlMapping
deriving DecidableEq

namespace ChamaS3ComparatorService

/-- `ChamaS3ComparatorService.normalize_column_name`:
`col_name.lower().strip()` on an actual string. -/
def normalize_column_name (col_name : String) : String :=
  py_strip (py_lower col_name)

/-- `ChamaS3ComparatorService.normalize_column_name` as called on an
arbitrary (possibly `None`) argument: Python raises `AttributeError`
when `col_name` is `None`, modelled with `Except`. -/
def normalize_column_name_checked (col_name : Option String) :
    Except String String :=
  match col_name with
  | none => Except.error "AttributeError: NoneType has no attribute lower"
  | some s => Except.ok (normalize_column_name s)

/-- The value record stored in `s3_fields_map` / `etl_fields_map`. -/
structure FieldInfo where
  from_santander : String
  laborit : String
  type : String
deriving DecidableEq

/-- The record built for `fields_map` entries from a raw field whose
`from_santander` string is `fs`. -/
def mk_field_info (f : EtlField) (fs : String) : FieldInfo :=
  { from_santander := fs
    laborit := f.laborit.getD ""
    type := f.type.getD "" }

/-- One iteration of the field-collection loop of `compare_metadatas`:
skip the field when `from_santander` is absent, null or the empty string
(all falsy in Python), otherwise store it under its normalized name. -/
def insert_field (m : List (String × FieldInfo)) (f : EtlField) :
    List (String × FieldInfo) :=
  match f.from_santander with
  | none => m
  | some fs =>
    if fs = "" then m
    else upsert m (normalize_column_name fs) (mk_field_info f fs)

/-- The nested `for mapping ... for field ...` loops of
`compare_metadatas` flattening all mapping-level fields of one file into
one normalized-name-keyed dict. -/
def collect_fields_map (mappings : List EtlMapping) :
    List (String × FieldInfo) :=
  mappings.foldl (fun m mp => mp.fields.foldl insert_field m) []

/-- The fields map of one side of a comparison (`{}` when the file is
absent from that side). -/
def fields_map_of (fd : Option EtlFile) : List (String × FieldInfo) :=
  match fd with
  | none => []
  | some f => collect_fields_map f.mappings

/-- An entry of the `fields_in_both` list. -/
structure BothField where
  from_santander : String
  s3_laborit : String
  s3_type : String
  etl_laborit : String
  etl_type : String
deriving DecidableEq

/-- The `comparison_item` dict emitted per file name. -/
structure ComparisonItem where
  file_name : String
  has_s3_file : Bool
  has_etl_file : Bool
  s3_mappings_count : Nat
  etl_mappings_count : Nat
  s3_fields_count : Nat
  etl_fields_count : Nat
  fields_in_both_count : Nat
  fields_only_in_s3_count : Nat
  fields_only_in_etl_count : Nat
  fields_in_both : List BothField
  fields_only_in_s3 : List FieldInfo
  fields_only_in_etl : List FieldInfo
deriving DecidableEq

/-- The body of the per-file-name iteration of `compare_metadatas`:
build both fields maps and partition by normalized name. -/
def compare_file (file_name : String)
    (s3_file_data etl_file_data : Option EtlFile) : ComparisonItem :=
  let s3_fields_map := fields_map_of s3_file_data
  let etl_fields_map := fields_map_of etl_file_data
  let fields_in_both := s3_fields_map.filterMap (fun p =>
    (alookup etl_fields_map p.1).map (fun etl_field =>
      { from_santander := p.2.from_santander
        s3_laborit := p.2.laborit
        s3_type := p.2.type
        etl_laborit := etl_field.laborit
        etl_type := etl_field.type : BothField }))
  let fields_only_in_s3 :=
    (s3_fields_map.filter (fun p => (alookup etl_fields_map p.1).isNone)).map
      (fun p => p.2)
  let fields_only_in_etl :=
    (etl_fields_map.filter (fun p => (alookup s3_fields_map p.1).isNone)).map
      (fun p => p.2)
  { file_name := file_name
    has_s3_file := s3_file_data.isSome
    has_etl_file := etl_file_data.isSome
    s3_mappings_count := match s3_file_data with
      | none => 0
      | some f => f.mappings.length
    etl_mappings_count := match etl_file_data with
      | none => 0
      | some f => f.mappings.length
    s3_fields_count := s3_fields_map.length
    etl_fields_count := etl_fields_map.length
    fields_in_both_count := fields_in_both.length
    fields_only_in_s3_count := fields_only_in_s3.length
    fields_only_in_etl_count := fields_only_in_etl.length
    fields_in_both := fields_in_both
    fields_only_in_s3 := fields_only_in_s3
    fields_only_in_etl := fields_only_in_etl }

/-- An entry of the `etl_files_without_s3` list. -/
structure EtlWithoutS3Item where
  file_name : String
  mappings_count : Nat
  fields_count : Nat
deriving DecidableEq

/-- The comparison document returned by `compare_metadatas` (its pure
payload; the `generated_at` timestamp and source-header echo are I/O
fringe). -/
structure S3ComparisonOutput where
  comparisons : List ComparisonItem
  etl_files_without_s3 : List EtlWithoutS3Item
  etl_files_without_s3_count : Nat
deriving DecidableEq

/-- `{file_data['name']: file_data for file_data in files}`. -/
def build_files_map (files : List EtlFile) : List (String × EtlFile) :=
  files.foldl (fun m fd => upsert m fd.name fd) []

/-- Python `sorted` on a list of strings, modelled by insertion sort
with the lexicographic order (Python's sort is specified by exactly the
sortedness and permutation properties proved below). -/
def py_sorted (l : List String) : List String :=
  l.insertionSort (fun a b => py_str_le a b = true)

/-- `ChamaS3ComparatorService.compare_metadatas`: one comparison item per
name in `sorted(set(s3 keys) | set(etl keys))`, plus the list of ETL
files with no S3 counterpart. -/
def compare_metadatas (s3_files etl_files : List EtlFile) :
    S3ComparisonOutput :=
  let s3_files_map := build_files_map s3_files
  let etl_files_map := build_files_map etl_files
  let all_file_names :=
    py_sorted ((keysOf s3_files_map) ++ (keysOf etl_files_map)).dedup
  let comparisons := all_file_names.map (fun n =>
    compare_file n (alookup s3_files_map n) (alookup etl_files_map n))
  let etl_without_s3 :=
    (etl_files_map.filter
      (fun p => !(s3_files_map.any (fun q => q.1 == p.1)))).map
      (fun p =>
        { file_name := p.1
          mappings_count := p.2.mappings.length
          fields_count := (p.2.mappings.map (fun m => m.fields.length)).sum
          : EtlWithoutS3Item })
  { comparisons := comparisons
    etl_files_without_s3 := etl_without_s3
    etl_files_without_s3_count := etl_without_s3.length }

end ChamaS3ComparatorService

namespace ChamaFromSystemService

/-- `ChamaFromSystemService._normalize_name`: `name.lower().strip()`. -/
def normalize_name (name : String) : String :=
  py_strip (py_lower name)

/-- `_normalize_name` as called on a possibly-`None` argument: raises
`AttributeError` on `None`. -/
def normalize_name_checked (name : Option String) : Except String String :=
  match name with
  | none => Except.error "AttributeError: NoneType has no attribute lower"
  | some s => Except.ok (normalize_name s)

/-- The two accepted wire encodings of `colunas_nao_utilizadas` (plus the
catch-all for any other JSON type, which yields nothing). -/
inductive UnusedColumnsValue where
  | dict (entries : List (String × Option String))
  | flat (entries : List (Option String))
  | other
deriving DecidableEq

/-- One entry of the raw system-usage document (`chama_system.json`). -/
structure SystemRecord where
  tabela : Option String
  colunas_nao_utilizadas : UnusedColumnsValue
deriving DecidableEq

/-- The `{}` that `system_map.get(table_name, {})` yields for a missing
table: no keys at all, so `colunas_nao_utilizadas` reads as `{}`. -/
def empty_system_record : SystemRecord :=
  { tabela := none, colunas_nao_utilizadas := .dict [] }

/-- A value of the `unused_columns_mapping` dict (dict encoding only). -/
structure UnusedColumnInfo where
  portuguese_name : String
  english_name : String
deriving DecidableEq

/-- `ChamaFromSystemService._load_system_metadata` (its pure mapping
step): index records by their `tabela` key, skipping records whose key
is absent, null or empty. -/
def load_system_metadata (items : List SystemRecord) :
    List (String × SystemRecord) :=
  items.foldl (fun m item =>
    match item.tabela with
    | none => m
    | some t => if t = "" then m else upsert m t item) []

/-- `ChamaFromSystemService._get_unused_columns`: the set of normalized
unused column names plus the display-name mapping (dict encoding
only). Null values/entries are skipped in both encodings. -/
def get_unused_columns (system_data : SystemRecord) :
    Finset String × List (String × UnusedColumnInfo) :=
  match system_data.colunas_nao_utilizadas with
  | .dict entries =>
    entries.foldl (fun acc p =>
      match p.2 with
      | none => acc
      | some en_name =>
        let normalized := normalize_name en_name
        (insert normalized acc.1,
         upsert acc.2 normalized
           { portuguese_name := p.1, english_name := en_name })) (∅, [])
  | .flat entries =>
    entries.foldl (fun acc en_name =>
      match en_name with
      | none => acc
      | some e => (insert (normalize_name e) acc.1, acc.2)) (∅, [])
  | .other => (∅, [])

end ChamaFromSystemService

namespace ChamaETLSystemComparatorService

/-- `ChamaETLSystemComparatorService.normalize_column_name`:
`col_name.lower().strip() if col_name else ''` — total, returns `''`
for `None` and for the (falsy) empty string. -/
def normalize_column_name (col_name : Option String) : String :=
  match col_name with
  | none => ""
  | some s => if s = "" then "" else py_strip (py_lower s)

/-- A field of the usage-comparison output, carrying the
`is_used_in_system` flag. -/
structure UsageField where
  from_santander : String
  laborit : String
  type : String
  is_used_in_system : Bool
deriving DecidableEq

/-- The per-mapping `statistics` block. -/
structure UsageStats where
  total_fields : Nat
  used_count : Nat
  unused_count : Nat
deriving DecidableEq

/-- The `mapping_comparison` dict emitted per ETL mapping. -/
structure MappingComparison where
  map : String
  table : String
  has_system_data : Bool
  fields : List UsageField
  statistics : UsageStats
  system_unused_columns_count : Nat
deriving DecidableEq

/-- The `file_comparison` dict emitted per ETL file. -/
structure FileComparison where
  file_name : String
  mappings : List MappingComparison
deriving DecidableEq

/-- An entry of the `etl_without_system` list. -/
structure EtlWithoutSystemItem where
  file_name : String
  map : String
  table : String
  fields_count : Nat
deriving DecidableEq

/-- The comparison document returned by `compare_metadatas` (pure
payload). -/
structure SystemComparisonOutput where
  files : List FileComparison
  etl_without_system : List EtlWithoutSystemItem
  etl_without_system_count : Nat
deriving DecidableEq

/-- `system_map.get(table_name, {})` up to the default: the mapping's
`table` value looked up in the system map (an absent/null `table` reads
as a key that is never present). -/
def lookup_system
    (system_map : List (String × ChamaFromSystemService.SystemRecord))
    (table : Option String) :
    Option ChamaFromSystemService.SystemRecord :=
  match table with
  | none => none
  | some t => alookup system_map t

/-- The per-field body of the usage loop: a field is unused iff its
normalized `laborit` name is in the unused set; `is_used` is the
negation. -/
def field_with_usage (unused_columns_set : Finset String)
    (field : EtlField) : UsageField :=
  let laborit_name := field.laborit
  let normalized_laborit := normalize_column_name laborit_name
  let is_unused : Bool := decide (normalized_laborit ∈ unused_columns_set)
  let is_used := !is_unused
  { from_santander := field.from_santander.getD ""
    laborit := laborit_name.getD ""
    type := field.type.getD ""
    is_used_in_system := is_used }

/-- The per-mapping body of `compare_metadatas`: look up the system
record by target table, extract the unused set, flag every field and
count. -/
def compare_mapping
    (system_map : List (String × ChamaFromSystemService.SystemRecord))
    (mapping : EtlMapping) : MappingComparison :=
  let system_data := lookup_system system_map mapping.table
  let unused := ChamaFromSystemService.get_unused_columns
    (system_data.getD ChamaFromSystemService.empty_system_record)
  let unused_columns_set := unused.1
  let fields_with_usage := mapping.fields.map (field_with_usage unused_columns_set)
  let used_count := fields_with_usage.countP (fun f => f.is_used_in_system)
  let unused_count := fields_with_usage.countP (fun f => !f.is_used_in_system)
  { map := mapping.map.getD ""
    table := mapping.table.getD ""
    has_system_data := system_data.isSome
    fields := fields_with_usage
    statistics :=
      { total_fields := fields_with_usage.length
        used_count := used_count
        unused_count := unused_count }
    system_unused_columns_count := unused_columns_set.card }

/-- `ChamaETLSystemComparatorService.compare_metadatas` (pure payload):
annotate every ETL field with its usage flag and collect the mappings
lacking system data. -/
def compare_metadatas (etl_files : List EtlFile)
    (system_items : List ChamaFromSystemService.SystemRecord) :
    SystemComparisonOutput :=
  let system_map := ChamaFromSystemService.load_system_metadata system_items
  let files := etl_files.map (fun etl_file =>
    { file_name := etl_file.name
      mappings := etl_file.mappings.map (compare_mapping system_map)
      : FileComparison })
  let etl_without_system := etl_files.foldl (fun acc etl_file =>
    acc ++ (etl_file.mappings.filter
        (fun m => (lookup_system system_map m.table).isNone)).map
      (fun m =>
        { file_name := etl_file.name
          map := m.map.getD ""
          table := m.table.getD ""
          fields_count := m.fields.length : EtlWithoutSystemItem })) []
  { files := files
    etl_without_system := etl_without_system
    etl_without_system_count := etl_without_system.length }

end ChamaETLSystemComparatorService

namespace ChamaConsolidatedMetadataService

/-- `ChamaConsolidatedMetadataService._normalize_name`:
`name.lower().strip()`. -/
def normalize_name (name : String) : String :=
  py_strip (py_lower name)

/-- `ChamaConsolidatedMetadataService._check_field_in_s3`: a field
exists in S3 iff its normalized source name matches an entry of the
file's `fields_in_both` or `fields_only_in_s3` list; `false` when the
file has no comparison record (the falsy `{}` default). -/
def check_field_in_s3 (from_santander : String)
    (s3_comparison : Option ChamaS3ComparatorService.ComparisonItem) :
    Bool :=
  match s3_comparison with
  | none => false
  | some comp =>
    let normalized_from_santander := normalize_name from_santander
    comp.fields_in_both.any
      (fun field =>
        normalize_name field.from_santander == normalized_from_santander) ||
    comp.fields_only_in_s3.any
      (fun field =>
        normalize_name field.from_santander == normalized_from_santander)

/-- A consolidated field: the three ETL values plus the two derived
flags. -/
structure ConsolidatedField where
  from_santander : String
  laborit : String
  type : String
  exists_in_s3 : Bool
  is_used_in_system : Bool
deriving DecidableEq

/-- The per-mapping `statistics` block of the consolidated document. -/
structure ConsolidatedStats where
  total_fields : Nat
  exists_in_s3_count : Nat
  used_in_system_count : Nat
  unused_in_system_count : Nat
deriving DecidableEq

/-- The per-mapping `s3_comparison` summary block. -/
structure S3ComparisonSummary where
  has_s3_file : Bool
  fields_in_both_count : Nat
  fields_only_in_s3_count : Nat
  fields_only_in_etl_count : Nat
deriving DecidableEq

/-- The per-mapping `system_comparison` summary block. -/
structure SystemComparisonSummary where
  has_system_data : Bool
  system_unused_columns_count : Nat
deriving DecidableEq

/-- A consolidated mapping. -/
structure ConsolidatedMapping where
  map : String
  table : String
  fields : List ConsolidatedField
  statistics : ConsolidatedStats
  s3_comparison : S3ComparisonSummary
  system_comparison : SystemComparisonSummary
deriving DecidableEq

/-- A consolidated file. -/
structure ConsolidatedFile where
  name : String
  mappings : List ConsolidatedMapping
deriving DecidableEq

/-- The consolidated document (pure payload; the `generated_at` stamp is
I/O fringe). -/
structure ConsolidatedOutput where
  files : List ConsolidatedFile
deriving DecidableEq

/-- The per-mapping body of `consolidate`. -/
def consolidate_mapping
    (s3_file_data : Option EtlFile)
    (s3_comparison : Option ChamaS3ComparatorService.ComparisonItem)
    (system_file_comparison :
      List (String × ChamaETLSystemComparatorService.MappingComparison))
    (etl_mapping : EtlMapping) : ConsolidatedMapping :=
  let map_name := etl_mapping.map.getD ""
  let table_name := etl_mapping.table.getD ""
  let system_mapping_comp := alookup system_file_comparison map_name
  let system_fields_map :=
    ((system_mapping_comp.map (fun c => c.fields)).getD []).foldl
      (fun m sys_field =>
        upsert m (normalize_name sys_field.from_santander) sys_field) []
  let consolidated_fields := etl_mapping.fields.map (fun etl_field =>
    let from_santander := etl_field.from_santander.getD ""
    let exists_in_s3 := check_field_in_s3 from_santander s3_comparison
    let normalized_from_santander := normalize_name from_santander
    let is_used_in_system :=
      match alookup system_fields_map normalized_from_santander with
      | none => false
      | some system_field => system_field.is_used_in_system
    { from_santander := from_santander
      laborit := etl_field.laborit.getD ""
      type := etl_field.type.getD ""
      exists_in_s3 := exists_in_s3
      is_used_in_system := is_used_in_system : ConsolidatedField })
  let total_fields := consolidated_fields.length
  let used_in_system_count :=
    consolidated_fields.countP (fun f => f.is_used_in_system)
  let unused_in_system_count := total_fields - used_in_system_count
  let exists_in_s3_count :=
    consolidated_fields.countP (fun f => f.exists_in_s3)
  { map := map_name
    table := table_name
    fields := consolidated_fields
    statistics :=
      { total_fields := total_fields
        exists_in_s3_count := exists_in_s3_count
        used_in_system_count := used_in_system_count
        unused_in_system_count := unused_in_system_count }
    s3_comparison :=
      { has_s3_file := s3_file_data.isSome
        fields_in_both_count := match s3_comparison with
          | none => 0
          | some c => c.fields_in_both_count
        fields_only_in_s3_count := match s3_comparison with
          | none => 0
          | some c => c.fields_only_in_s3_count
        fields_only_in_etl_count := match s3_comparison with
          | none => 0
          | some c => c.fields_only_in_etl_count }
    system_comparison :=
      { has_system_data := match system_mapping_comp with
          | none => false
          | some c => c.has_system_data
        system_unused_columns_count := match system_mapping_comp with
          | none => 0
          | some c => c.system_unused_columns_count } }

/-- `ChamaConsolidatedMetadataService.consolidate` (pure payload): the
four loaded documents in, the consolidated document out, mirroring the
ETL file → mapping → field tree. -/
def consolidate (etl_files : List EtlFile) (s3_files : List EtlFile)
    (s3_comparisons : List ChamaS3ComparatorService.ComparisonItem)
    (system_files : List ChamaETLSystemComparatorService.FileComparison) :
    ConsolidatedOutput :=
  let s3_comparison_map :=
    s3_comparisons.foldl (fun m comp => upsert m comp.file_name comp) []
  let system_comparison_map :=
    system_files.foldl (fun m file_comp =>
      upsert m file_comp.file_name
        (file_comp.mappings.foldl
          (fun mm mapping_comp => upsert mm mapping_comp.map mapping_comp)
          [])) []
  let s3_files_map := s3_files.foldl (fun m fd => upsert m fd.name fd) []
  let files := etl_files.map (fun etl_file =>
    let file_name := etl_file.name
    let s3_file_data := alookup s3_files_map file_name
    let s3_comparison := alookup s3_comparison_map file_name
    let system_file_comparison :=
      (alookup system_comparison_map file_name).getD []
    { name := file_name
      mappings := etl_file.mappings.map
        (consolidate_mapping s3_file_data s3_comparison
          system_file_comparison) : ConsolidatedFile })
  { files := files }

end ChamaConsolidatedMetadataService

/-- The normalized-name key under which the ETL-vs-Storage reconciler
files a raw field, if any: `none` when `from_santander` is absent, null
or empty (the falsy values Python skips). -/
def norm_key (f : EtlField) : Option String :=
  match f.from_santander with
  | none => none
  | some fs =>
    if fs = "" then none
    else some (ChamaS3ComparatorService.normalize_column_name fs)

/-- A copy of an ETL/S3 file entry with every field whose
`from_santander` is absent, null or empty removed from every mapping
(the fields the reconciler's collection loop skips). -/
def drop_blank_fields (file : EtlFile) : EtlFile :=
  EtlFile.mk file.name (file.mappings.map (fun m =>
    EtlMapping.mk m.map m.table
      (m.fields.filter (fun f => (norm_key f).isSome))))

/-!  ## Association-list (Python dict) lemmas  -/

theorem alookup_nil {α : Type} (k : String) :
    alookup ([] : List (String × α)) k = none := rfl

theorem alookup_cons {α : Type} (p : String × α) (t : List (String × α))
    (k : String) :
    alookup (p :: t) k = if p.1 = k then some p.2 else alookup t k := by
  by_cases h : p.1 = k
  · simp [alookup, List.find?_cons_of_pos, h]
  · simp [alookup, List.find?_cons_of_neg, h]

theorem any_fst_eq_iff_mem_keysOf {α : Type} (m : List (String × α))
    (k : String) : m.any (fun p => p.1 == k) = true ↔ k ∈ keysOf m := by
  rw [List.any_eq_true]
  constructor
  · rintro ⟨p, hp, hpk⟩
    exact List.mem_map.2 ⟨p, hp, by simpa using hpk⟩
  · intro hk
    rcases List.mem_map.1 hk with ⟨p, hp, rfl⟩
    exact ⟨p, hp, by simp⟩

theorem keysOf_overwrite {α : Type} (m : List (String × α)) (k : String)
    (v : α) :
    keysOf (m.map (fun p => if p.1 == k then (k, v) else p)) = keysOf m := by
  simp only [keysOf, List.map_map]
  refine List.map_congr_left (fun p _ => ?_)
  by_cases h : p.1 = k
  · simp [h]
  · simp [h]

theorem keysOf_upsert {α : Type} (m : List (String × α)) (k : String)
    (v : α) :
    keysOf (upsert m k v) =
      if k ∈ keysOf m then keysOf m else keysOf m ++ [k] := by
  unfold upsert
  by_cases h : k ∈ keysOf m
  · rw [if_pos ((any_fst_eq_iff_mem_keysOf m k).2 h), if_pos h]
    exact keysOf_overwrite m k v
  · rw [if_neg (fun ha => h ((any_fst_eq_iff_mem_keysOf m k).1 ha)), if_neg h]
    simp [keysOf]

theorem mem_keysOf_upsert {α : Type} (m : List (String × α)) (k k' : String)
    (v : α) :
    k' ∈ keysOf (upsert m k v) ↔ k' ∈ keysOf m ∨ k' = k := by
  rw [keysOf_upsert]
  by_cases h : k ∈ keysOf m
  · rw [if_pos h]
    constructor
    · exact fun h' => Or.inl h'
    · rintro (h' | rfl) <;> [exact h'; exact h]
  · rw [if_neg h]
    simp

theorem nodup_keysOf_upsert {α : Type} {m : List (String × α)} (k : String)
    (v : α) (h : (keysOf m).Nodup) : (keysOf (upsert m k v)).Nodup := by
  rw [keysOf_upsert]
  by_cases hk : k ∈ keysOf m
  · rwa [if_pos hk]
  · rw [if_neg hk]
    simpa [List.nodup_append] using ⟨h, hk⟩

theorem alookup_overwrite_self {α : Type} (m : List (String × α))
    (k : String) (v : α) :
    alookup (m.map (fun p => if p.1 == k then (k, v) else p)) k =
      if k ∈ keysOf m then some v else none := by
  induction m with
  | nil => simp [alookup, keysOf]
  | cons p t ih =>
    by_cases h : p.1 = k
    · rw [List.map_cons, if_pos (by simpa using h), alookup_cons]
      simp [keysOf, h]
    · rw [List.map_cons, if_neg (by simpa using h), alookup_cons, if_neg h, ih]
      have hiff : (k ∈ keysOf (p :: t)) ↔ k ∈ keysOf t := by
        simp [keysOf, Ne.symm h]
      rw [if_congr hiff rfl rfl]

theorem alookup_overwrite_ne {α : Type} (m : List (String × α))
    (k k' : String) (v : α) (hne : k' ≠ k) :
    alookup (m.map (fun p => if p.1 == k then (k, v) else p)) k' =
      alookup m k' := by
  induction m with
  | nil => rfl
  | cons p t ih =>
    by_cases h : p.1 = k
    · rw [List.map_cons, if_pos (by simpa using h), alookup_cons,
        if_neg (Ne.symm hne), alookup_cons, if_neg (h ▸ fun e => hne e.symm),
        ih]
    · rw [List.map_cons, if_neg (by simpa using h), alookup_cons, alookup_cons,
        ih]

theorem alookup_append {α : Type} (m l : List (String × α)) (k : String) :
    alookup (m ++ l) k = (alookup m k).or (alookup l k) := by
  simp only [alookup, List.find?_append]
  cases List.find? (fun p => p.1 == k) m <;> simp

theorem alookup_eq_none_of_not_mem {α : Type} {m : List (String × α)}
    {k : String} (h : k ∉ keysOf m) : alookup m k = none := by
  have hfind : List.find? (fun p => p.1 == k) m = none := by
    rw [List.find?_eq_none]
    intro p hp hpk
    exact h ((any_fst_eq_iff_mem_keysOf m k).1 (List.any_eq_true.2 ⟨p, hp, hpk⟩))
  simp [alookup, hfind]

theorem alookup_isSome_iff_mem_keysOf {α : Type} (m : List (String × α))
    (k : String) : (alookup m k).isSome = true ↔ k ∈ keysOf m := by
  constructor
  · intro h
    by_contra hk
    rw [alookup_eq_none_of_not_mem hk] at h
    simp at h
  · intro h
    rcases List.mem_map.1 h with ⟨p, hp, rfl⟩
    have hfind : (List.find? (fun q => q.1 == p.1) m).isSome = true :=
      List.find?_isSome.2 ⟨p, hp, by simp⟩
    rcases Option.isSome_iff_exists.1 hfind with ⟨q, hq⟩
    simp [alookup, hq]

theorem alookup_upsert {α : Type} (m : List (String × α)) (k k' : String)
    (v : α) :
    alookup (upsert m k v) k' = if k' = k then some v else alookup m k' := by
  unfold upsert
  by_cases hmem : k ∈ keysOf m
  · rw [if_pos ((any_fst_eq_iff_mem_keysOf m k).2 hmem)]
    by_cases h : k' = k
    · subst h
      rw [if_pos rfl, alookup_overwrite_self, if_pos hmem]
    · rw [if_neg h, alookup_overwrite_ne m k k' v h]
  · rw [if_neg (fun ha => hmem ((any_fst_eq_iff_mem_keysOf m k).1 ha)),
      alookup_append]
    by_cases h : k' = k
    · subst h
      rw [if_pos rfl, alookup_eq_none_of_not_mem hmem]
      have hsingle : alookup [(k', v)] k' = some v := by
        rw [alookup_cons, if_pos rfl]
      rw [hsingle]
      rfl
    · rw [if_neg h]
      have hsingle : alookup [(k, v)] k' = none := by
        rw [alookup_cons, if_neg (Ne.symm h)]
        rfl
      rw [hsingle, Option.or_none]

/-!  ## The lexicographic string order is total and transitive  -/

theorem list_char_le_total :
    ∀ a b : List Char, list_char_le a b = true ∨ list_char_le b a = true
  | [], _ => Or.inl rfl
  | _ :: _, [] => Or.inr rfl
  | c :: a, d :: b => by
    by_cases h1 : c.toNat < d.toNat
    · left
      simp [list_char_le, h1]
    · by_cases h2 : d.toNat < c.toNat
      · right
        simp [list_char_le, h2]
      · rcases list_char_le_total a b with h | h
        · left
          simp [list_char_le, h1, h2, h]
        · right
          simp [list_char_le, h2, h1, h]

theorem list_char_le_trans :
    ∀ a b c : List Char, list_char_le a b = true → list_char_le b c = true →
      list_char_le a c = true
  | [], _, _ => fun _ _ => rfl
  | _ :: _, [], _ => fun h _ => by cases h
  | _ :: _, _ :: _, [] => fun _ h => by cases h
  | x :: a, y :: b, z :: c => fun h1 h2 => by
    simp only [list_char_le] at h1 h2 ⊢
    by_cases hxy : x.toNat < y.toNat
    · by_cases hyz : y.toNat < z.toNat
      · rw [if_pos (by omega : x.toNat < z.toNat)]
      · by_cases hzy : z.toNat < y.toNat
        · rw [if_neg hyz, if_pos hzy] at h2
          cases h2
        · rw [if_pos (by omega : x.toNat < z.toNat)]
    · by_cases hyx : y.toNat < x.toNat
      · rw [if_neg hxy, if_pos hyx] at h1
        cases h1
      · rw [if_neg hxy, if_neg hyx] at h1
        by_cases hyz : y.toNat < z.toNat
        · rw [if_pos (by omega : x.toNat < z.toNat)]
        · by_cases hzy : z.toNat < y.toNat
          · rw [if_neg hyz, if_pos hzy] at h2
            cases h2
          · rw [if_neg hyz, if_neg hzy] at h2
            rw [if_neg (by omega : ¬ x.toNat < z.toNat),
              if_neg (by omega : ¬ z.toNat < x.toNat)]
            exact list_char_le_trans a b c h1 h2

instance : IsTotal String (fun a b => py_str_le a b = true) :=
  ⟨fun a b => list_char_le_total a.data b.data⟩

instance : IsTrans String (fun a b => py_str_le a b = true) :=
  ⟨fun a b c => list_char_le_trans a.data b.data c.data⟩

theorem mem_of_mem_upsert {α : Type} {m : List (String × α)} {k : String}
    {v : α} {p : String × α} (hp : p ∈ upsert m k v) :
    p ∈ m ∨ p = (k, v) := by
  unfold upsert at hp
  by_cases ha : m.any (fun q => q.1 == k) = true
  · rw [if_pos ha] at hp
    rcases List.mem_map.1 hp with ⟨q, hq, rfl⟩
    by_cases h : q.1 = k
    · right
      simp [h]
    · left
      simpa [h] using hq
  · rw [if_neg ha] at hp
    rcases List.mem_append.1 hp with h | h
    · exact Or.inl h
    · right
      simpa using h

/-!  ## Claim C9: totality of the name normalizers  -/

/-- C9 counterexample: the claim says every comparison-service
normalizer accepts null without raising, but
`ChamaS3ComparatorService.normalize_column_name` is
`col_name.lower().strip()` with no null guard, so the null input raises
`AttributeError` instead of returning a string. -/
theorem claim9_normalizer_null_counterexample :
    ¬ ∃ r : String,
      ChamaS3ComparatorService.normalize_column_name_checked none =
        Except.ok r := by
  rintro ⟨r, h⟩
  exact Except.noConfusion h

/-- C9 amended: only the ETL-vs-System comparator's
`normalize_column_name` guards against null (returning `''` for null and
for the falsy empty string); the S3 comparator's `normalize_column_name`
and the from-system service's `_normalize_name` return a string without
raising for every actual string input — with `''` for `''` — but raise
`AttributeError` on null. -/
theorem claim9_normalizer_totality_amended :
    (ChamaETLSystemComparatorService.normalize_column_name none = "" ∧
     ChamaETLSystemComparatorService.normalize_column_name (some "") = "") ∧
    ((∀ s : String, ∃ r : String,
        ChamaS3ComparatorService.normalize_column_name_checked (some s) =
          Except.ok r) ∧
     ChamaS3ComparatorService.normalize_column_name "" = "") ∧
    ((∀ s : String, ∃ r : String,
        ChamaFromSystemService.normalize_name_checked (some s) =
          Except.ok r) ∧
     ChamaFromSystemService.normalize_name "" = "") :=
  ⟨⟨rfl, rfl⟩,
   ⟨fun s => ⟨ChamaS3ComparatorService.normalize_column_name s, rfl⟩, rfl⟩,
   ⟨fun s => ⟨ChamaFromSystemService.normalize_name s, rfl⟩, rfl⟩⟩

/-!  ## Claim C5: the two unused-columns encodings are equivalent  -/

theorem get_unused_columns_dict_fst
    (entries : List (String × Option String))
    (acc : Finset String × List (String × ChamaFromSystemService.UnusedColumnInfo)) :
    (entries.foldl (fun acc p =>
      match p.2 with
      | none => acc
      | some en_name =>
        let normalized := ChamaFromSystemService.normalize_name en_name
        (insert normalized acc.1,
         upsert acc.2 normalized
           { portuguese_name := p.1, english_name := en_name })) acc).1 =
      entries.foldl (fun s p =>
        match p.2 with
        | none => s
        | some en_name =>
          insert (ChamaFromSystemService.normalize_name en_name) s) acc.1 := by
  induction entries generalizing acc with
  | nil => rfl
  | cons p t ih =>
    cases hp : p.2 with
    | none => simp only [List.foldl_cons, hp, ih]
    | some en => simp only [List.foldl_cons, hp, ih]

theorem get_unused_columns_flat_fst
    (entries : List (Option String))
    (acc : Finset String × List (String × ChamaFromSystemService.UnusedColumnInfo)) :
    (entries.foldl (fun acc en_name =>
      match en_name with
      | none => acc
      | some e =>
        (insert (ChamaFromSystemService.normalize_name e) acc.1, acc.2)) acc).1 =
      entries.foldl (fun s en_name =>
        match en_name with
        | none => s
        | some e => insert (ChamaFromSystemService.normalize_name e) s) acc.1 := by
  induction entries generalizing acc with
  | nil => rfl
  | cons p t ih =>
    cases hp : p with
    | none => simp only [List.foldl_cons, ih]
    | some en => simp only [List.foldl_cons, ih]

theorem unused_set_fold_dict_eq_flat
    (entries : List (String × Option String)) (s : Finset String) :
    entries.foldl (fun s p =>
      match p.2 with
      | none => s
      | some en_name =>
        insert (ChamaFromSystemService.normalize_name en_name) s) s =
    ((entries.filterMap (fun p => p.2)).map some).foldl (fun s en_name =>
      match en_name with
      | none => s
      | some e => insert (ChamaFromSystemService.normalize_name e) s) s := by
  induction entries generalizing s with
  | nil => rfl
  | cons p t ih =>
    cases hp : p.2 with
    | none => simp only [List.foldl_cons, List.filterMap_cons, hp, ih]
    | some en => simp only [List.foldl_cons, List.filterMap_cons, hp,
        List.map_cons, ih]

/-- C5: extracting unused columns from the dict encoding
`{display_name: internal_name}` and from the flat list of that dict's
non-null values yields the identical set of normalized unused names
(`_get_unused_columns`, first component). -/
theorem claim5_encoding_equivalence (ta tb : Option String)
    (entries : List (String × Option String)) :
    (ChamaFromSystemService.get_unused_columns
      { tabela := ta, colunas_nao_utilizadas := .dict entries }).1 =
    (ChamaFromSystemService.get_unused_columns
      { tabela := tb,
        colunas_nao_utilizadas :=
          .flat ((entries.filterMap (fun p => p.2)).map some) }).1 := by
  simp only [ChamaFromSystemService.get_unused_columns]
  rw [get_unused_columns_dict_fst, get_unused_columns_flat_fst]
  exact unused_set_fold_dict_eq_flat entries ∅

/-!  ## Lemmas about the system-usage comparator  -/

theorem countP_add_countP_not {α : Type} (p : α → Bool) (l : List α) :
    l.countP p + l.countP (fun a => !p a) = l.length := by
  induction l with
  | nil => rfl
  | cons a t ih =>
    by_cases h : p a = true
    · rw [List.countP_cons_of_pos _ _ h,
        List.countP_cons_of_neg _ _ (by simp [h]), List.length_cons]
      omega
    · rw [List.countP_cons_of_neg _ _ h,
        List.countP_cons_of_pos _ _ (by simp [h]), List.length_cons]
      omega

theorem normalize_column_name_some_getD (o : Option String) :
    ChamaETLSystemComparatorService.normalize_column_name (some (o.getD "")) =
      ChamaETLSystemComparatorService.normalize_column_name o := by
  cases o <;> rfl

theorem empty_not_mem_keysOf_load_system
    (items : List ChamaFromSystemService.SystemRecord) :
    "" ∉ keysOf (ChamaFromSystemService.load_system_metadata items) := by
  have aux : ∀ (its : List ChamaFromSystemService.SystemRecord)
      (m : List (String × ChamaFromSystemService.SystemRecord)),
      "" ∉ keysOf m →
      "" ∉ keysOf (its.foldl (fun m item =>
        match item.tabela with
        | none => m
        | some t => if t = "" then m else upsert m t item) m) := by
    intro its
    induction its with
    | nil => exact fun m hm => hm
    | cons item t ih =>
      intro m hm
      simp only [List.foldl_cons]
      cases hta : item.tabela with
      | none => exact ih m hm
      | some ta =>
        have hstep : (match some ta with
            | none => m
            | some t => if t = "" then m else upsert m t item) =
            if ta = "" then m else upsert m ta item := rfl
        rw [hstep]
        by_cases hempty : ta = ""
        · rw [if_pos hempty]
          exact ih m hm
        · rw [if_neg hempty]
          refine ih _ (fun hmem => ?_)
          rcases (mem_keysOf_upsert m ta "" item).1 hmem with h | h
          · exact hm h
          · exact hempty h.symm
  exact aux items [] (by simp [keysOf])

theorem lookup_system_eq_alookup_getD
    (items : List ChamaFromSystemService.SystemRecord) (t : Option String) :
    ChamaETLSystemComparatorService.lookup_system
        (ChamaFromSystemService.load_system_metadata items) t =
      alookup (ChamaFromSystemService.load_system_metadata items)
        (t.getD "") := by
  cases t with
  | none =>
    exact (alookup_eq_none_of_not_mem
      (empty_not_mem_keysOf_load_system items)).symm
  | some s => rfl

/-!  ## Claim C3: usage-flag totality  -/

/-- C3: in the usage-comparison output, every field's
`is_used_in_system` is exactly the negation of membership of its
normalized internal (`laborit`) name in the unused set extracted for
that mapping's table, and `used_count + unused_count = total_fields`
for every mapping. -/
theorem claim3_usage_flag_totality (etl_files : List EtlFile)
    (system_items : List ChamaFromSystemService.SystemRecord) :
    ∀ fc ∈ (ChamaETLSystemComparatorService.compare_metadatas etl_files
      system_items).files,
    ∀ mc ∈ fc.mappings,
      (∀ f ∈ mc.fields,
        f.is_used_in_system =
          !(decide (ChamaETLSystemComparatorService.normalize_column_name
              (some f.laborit) ∈
            (ChamaFromSystemService.get_unused_columns
              ((alookup (ChamaFromSystemService.load_system_metadata
                  system_items) mc.table).getD
                ChamaFromSystemService.empty_system_record)).1))) ∧
      mc.statistics.used_count + mc.statistics.unused_count =
        mc.statistics.total_fields := by
  intro fc hfc mc hmc
  rcases List.mem_map.1 hfc with ⟨ef, _hef, rfl⟩
  rcases List.mem_map.1 hmc with ⟨m, _hm, rfl⟩
  constructor
  · intro f hf
    rcases List.mem_map.1 hf with ⟨fl, _hfl, rfl⟩
    simp only [ChamaETLSystemComparatorService.field_with_usage,
      ChamaETLSystemComparatorService.compare_mapping]
    refine congrArg (fun b => !b) ?_
    rw [decide_eq_decide, normalize_column_name_some_getD fl.laborit,
      lookup_system_eq_alookup_getD system_items m.table]
  · exact countP_add_countP_not _ _

/-!  ## Claim C1: mappings without a system usage record  -/

/-- C1 counterexample: the claim (and spec Scenario D) says a mapping
whose target table has no usage record gets every field
`is_used_in_system = false` and `unused_count = total_fields`.  On the
concrete input below — one mapping on table `"t"` with one field, and an
empty usage document, so no mapping has a usage record — the code
produces `is_used_in_system = true` and `unused_count = 0` with
`total_fields = 1`: the unused set defaults to empty, so every field
counts as used. -/
theorem claim1_no_system_data_counterexample :
    ¬ (∀ fc ∈ (ChamaETLSystemComparatorService.compare_metadatas
          [EtlFile.mk "f" [EtlMapping.mk (some "m") (some "t")
            [EtlField.mk (some "c1") (some "x") (some "int")]]] []).files,
       ∀ mc ∈ fc.mappings,
         (∀ f ∈ mc.fields, f.is_used_in_system = false) ∧
         mc.statistics.unused_count = mc.statistics.total_fields) := by
  decide

/-- C1 amended: a mapping whose target table has no matching usage
record gets `has_system_data = false`, but — contrary to the claim —
every one of its fields gets `is_used_in_system = true`, its
`used_count` equals `total_fields` and its `unused_count` is `0`: with
no system record the unused set defaults to empty, so no field is
flagged unused.  (`compare_metadatas` applies `compare_mapping` to every
mapping of every file.) -/
theorem claim1_no_system_data_amended
    (system_items : List ChamaFromSystemService.SystemRecord)
    (mapping : EtlMapping)
    (h : ChamaETLSystemComparatorService.lookup_system
      (ChamaFromSystemService.load_system_metadata system_items)
      mapping.table = none) :
    (ChamaETLSystemComparatorService.compare_mapping
        (ChamaFromSystemService.load_system_metadata system_items)
        mapping).has_system_data = false ∧
    (∀ f ∈ (ChamaETLSystemComparatorService.compare_mapping
        (ChamaFromSystemService.load_system_metadata system_items)
        mapping).fields, f.is_used_in_system = true) ∧
    (ChamaETLSystemComparatorService.compare_mapping
        (ChamaFromSystemService.load_system_metadata system_items)
        mapping).statistics.used_count =
      (ChamaETLSystemComparatorService.compare_mapping
        (ChamaFromSystemService.load_system_metadata system_items)
        mapping).statistics.total_fields ∧
    (ChamaETLSystemComparatorService.compare_mapping
        (ChamaFromSystemService.load_system_metadata system_items)
        mapping).statistics.unused_count = 0 := by
  have hfields : ∀ f ∈ (ChamaETLSystemComparatorService.compare_mapping
      (ChamaFromSystemService.load_system_metadata system_items)
      mapping).fields, f.is_used_in_system = true := by
    intro f hf
    simp only [ChamaETLSystemComparatorService.compare_mapping, h] at hf
    rcases List.mem_map.1 hf with ⟨fl, _hfl, rfl⟩
    show (!(decide
      (ChamaETLSystemComparatorService.normalize_column_name fl.laborit ∈
        (ChamaFromSystemService.get_unused_columns
          ((none : Option ChamaFromSystemService.SystemRecord).getD
            ChamaFromSystemService.empty_system_record)).1))) = true
    simp [ChamaFromSystemService.get_unused_columns,
      ChamaFromSystemService.empty_system_record]
  refine ⟨?_, hfields, ?_, ?_⟩
  · simp only [ChamaETLSystemComparatorService.compare_mapping, h]
    rfl
  · exact List.countP_eq_length.2 (fun f hf => by
      simpa using hfields f hf)
  · exact List.countP_eq_zero.2 (fun f hf => by
      simp [hfields f hf])

/-- C1 amended, witnessed at the counterexample input (empty usage
document, so the single mapping's table `"t"` has no record). -/
theorem claim1_no_system_data_amended_witness :
    (ChamaETLSystemComparatorService.lookup_system
      (ChamaFromSystemService.load_system_metadata [])
      (EtlMapping.mk (some "m") (some "t")
        [EtlField.mk (some "c1") (some "x") (some "int")]).table = none) ∧
    ((ChamaETLSystemComparatorService.compare_mapping
        (ChamaFromSystemService.load_system_metadata [])
        (EtlMapping.mk (some "m") (some "t")
          [EtlField.mk (some "c1") (some "x") (some "int")])).has_system_data = false ∧
     (∀ f ∈ (ChamaETLSystemComparatorService.compare_mapping
        (ChamaFromSystemService.load_system_metadata [])
        (EtlMapping.mk (some "m") (some "t")
          [EtlField.mk (some "c1") (some "x") (some "int")])).fields, f.is_used_in_system = true) ∧
     (ChamaETLSystemComparatorService.compare_mapping
        (ChamaFromSystemService.load_system_metadata [])
        (EtlMapping.mk (some "m") (some "t")
          [EtlField.mk (some "c1") (some "x") (some "int")])).statistics.used_count =
       (ChamaETLSystemComparatorService.compare_mapping
        (ChamaFromSystemService.load_system_metadata [])
        (EtlMapping.mk (some "m") (some "t")
          [EtlField.mk (some "c1") (some "x") (some "int")])).statistics.total_fields ∧
     (ChamaETLSystemComparatorService.compare_mapping
        (ChamaFromSystemService.load_system_metadata [])
        (EtlMapping.mk (some "m") (some "t")
          [EtlField.mk (some "c1") (some "x") (some "int")])).statistics.unused_count = 0) :=
  ⟨by decide,
   claim1_no_system_data_amended []
     (EtlMapping.mk (some "m") (some "t")
       [{ from_santander := some "c1", laborit := some "x",
          type := some "int" }]) (by decide)⟩

/-!  ## Claim C7: last-write-wins in the flattened fields map  -/

theorem insert_field_eq_norm_key (m : List (String ×
    ChamaS3ComparatorService.FieldInfo)) (f : EtlField) :
    ChamaS3ComparatorService.insert_field m f =
      match norm_key f with
      | none => m
      | some k =>
        upsert m k (ChamaS3ComparatorService.mk_field_info f
          (f.from_santander.getD "")) := by
  cases hfs : f.from_santander with
  | none => simp [ChamaS3ComparatorService.insert_field, norm_key, hfs]
  | some fs =>
    by_cases h : fs = ""
    · simp [ChamaS3ComparatorService.insert_field, norm_key, hfs, h]
    · simp [ChamaS3ComparatorService.insert_field, norm_key, hfs, h]

theorem alookup_foldl_insert_field (fs : List EtlField)
    (m : List (String × ChamaS3ComparatorService.FieldInfo)) (k : String) :
    alookup (fs.foldl ChamaS3ComparatorService.insert_field m) k =
      match fs.reverse.find? (fun f => norm_key f == some k) with
      | some f => some (ChamaS3ComparatorService.mk_field_info f
          (f.from_santander.getD ""))
      | none => alookup m k := by
  induction fs generalizing m with
  | nil => rfl
  | cons f t ih =>
    rw [List.foldl_cons, ih, List.reverse_cons, List.find?_append]
    cases hg : t.reverse.find? (fun f => norm_key f == some k) with
    | some g => rfl
    | none =>
      rw [Option.none_or, List.find?_singleton]
      cases hk : norm_key f with
      | none =>
        rw [if_neg (by simp [hk]), insert_field_eq_norm_key, hk]
      | some knew =>
        rw [insert_field_eq_norm_key, hk]
        by_cases hkk : knew = k
        · subst hkk
          rw [if_pos (by simp [hk]), alookup_upsert, if_pos rfl]
        · rw [if_neg (by simp [hk, hkk]), alookup_upsert,
            if_neg (fun e => hkk e.symm)]

theorem collect_fields_map_eq_join (mappings : List EtlMapping)
    (m : List (String × ChamaS3ComparatorService.FieldInfo)) :
    mappings.foldl (fun m mp =>
        mp.fields.foldl ChamaS3ComparatorService.insert_field m) m =
      ((mappings.map (fun mp => mp.fields)).flatten).foldl
        ChamaS3ComparatorService.insert_field m := by
  induction mappings generalizing m with
  | nil => rfl
  | cons mp t ih =>
    rw [List.foldl_cons, List.map_cons, List.flatten_cons, List.foldl_append, ih]

/-- C7: when several fields of the same file (possibly from different
mappings) normalize to the same source-name key, the flattened
normalized-name lookup map keeps the later-seen field — looking up any
key returns exactly the **last** field of the file (in mapping, then
field order) whose normalized `from_santander` equals that key, silently
overwriting every earlier duplicate; blank-named fields never match. -/
theorem claim7_duplicate_normalized_last_write_wins
    (mappings : List EtlMapping) (k : String) :
    alookup (ChamaS3ComparatorService.collect_fields_map mappings) k =
      ((mappings.map (fun mp => mp.fields)).flatten.reverse.find?
          (fun f => norm_key f == some k)).map
        (fun f => ChamaS3ComparatorService.mk_field_info f
          (f.from_santander.getD "")) := by
  show alookup (mappings.foldl (fun m mp =>
      mp.fields.foldl ChamaS3ComparatorService.insert_field m) []) k = _
  rw [collect_fields_map_eq_join, alookup_foldl_insert_field]
  cases hfind : ((mappings.map (fun mp => mp.fields)).flatten).reverse.find?
      (fun f => norm_key f == some k) with
  | some g => rfl
  | none => rfl

/-!  ## Claim C10: blank source names are excluded everywhere  -/

theorem foldl_insert_field_filter (fs : List EtlField)
    (m : List (String × ChamaS3ComparatorService.FieldInfo)) :
    fs.foldl ChamaS3ComparatorService.insert_field m =
      (fs.filter (fun f => (norm_key f).isSome)).foldl
        ChamaS3ComparatorService.insert_field m := by
  induction fs generalizing m with
  | nil => rfl
  | cons f t ih =>
    cases hk : norm_key f with
    | none =>
      rw [List.foldl_cons, insert_field_eq_norm_key, hk,
        List.filter_cons_of_neg (by simp [hk]), ih]
    | some k =>
      rw [List.foldl_cons, List.filter_cons_of_pos (by simp [hk]),
        List.foldl_cons, ih]

theorem collect_fields_map_drop_blank (file : EtlFile) :
    ChamaS3ComparatorService.collect_fields_map
        (drop_blank_fields file).mappings =
      ChamaS3ComparatorService.collect_fields_map file.mappings := by
  show (file.mappings.map _).foldl _ [] = file.mappings.foldl _ []
  generalize ([] : List (String × ChamaS3ComparatorService.FieldInfo)) = m
  induction file.mappings generalizing m with
  | nil => rfl
  | cons mp t ih =>
    rw [List.map_cons, List.foldl_cons, List.foldl_cons]
    show (t.map _).foldl _
      ((mp.fields.filter (fun f => (norm_key f).isSome)).foldl
        ChamaS3ComparatorService.insert_field m) = _
    rw [← foldl_insert_field_filter]
    exact ih _

theorem upsert_map_snd {α β : Type} (g : α → β)
    (m : List (String × α)) (k : String) (v : α) :
    upsert (m.map (fun p => (p.1, g p.2))) k (g v) =
      (upsert m k v).map (fun p => (p.1, g p.2)) := by
  unfold upsert
  have hany : (m.map (fun p => (p.1, g p.2))).any (fun p => p.1 == k) =
      m.any (fun p => p.1 == k) := by
    induction m with
    | nil => rfl
    | cons p t ih => simp [ih]
  rw [hany]
  by_cases h : m.any (fun p => p.1 == k) = true
  · rw [if_pos h, if_pos h, List.map_map, List.map_map]
    refine List.map_congr_left (fun p _ => ?_)
    by_cases hp : p.1 = k
    · simp [hp]
    · simp [hp]
  · rw [if_neg h, if_neg h, List.map_append]
    rfl

theorem build_files_map_map (g : EtlFile → EtlFile)
    (hname : ∀ f, (g f).name = f.name) (files : List EtlFile)
    (m : List (String × EtlFile)) :
    (files.map g).foldl (fun m fd => upsert m fd.name fd)
        (m.map (fun p => (p.1, g p.2))) =
      (files.foldl (fun m fd => upsert m fd.name fd) m).map
        (fun p => (p.1, g p.2)) := by
  induction files generalizing m with
  | nil => rfl
  | cons fd t ih =>
    rw [List.map_cons, List.foldl_cons, List.foldl_cons, hname fd,
      upsert_map_snd g m fd.name fd]
    exact ih _

theorem alookup_map_snd {α β : Type} (g : α → β)
    (m : List (String × α)) (k : String) :
    alookup (m.map (fun p => (p.1, g p.2))) k = (alookup m k).map g := by
  induction m with
  | nil => rfl
  | cons p t ih =>
    rw [List.map_cons, alookup_cons, alookup_cons]
    by_cases h : p.1 = k
    · rw [if_pos h, if_pos h]
      rfl
    · rw [if_neg h, if_neg h, ih]

theorem keysOf_map_snd {α β : Type} (g : α → β) (m : List (String × α)) :
    keysOf (m.map (fun p => (p.1, g p.2))) = keysOf m := by
  simp [keysOf, List.map_map]

theorem compare_file_drop_blank (n : String) (s3fd etlfd : Option EtlFile) :
    ChamaS3ComparatorService.compare_file n (s3fd.map drop_blank_fields)
        (etlfd.map drop_blank_fields) =
      ChamaS3ComparatorService.compare_file n s3fd etlfd := by
  have h1 : ChamaS3ComparatorService.fields_map_of
      (s3fd.map drop_blank_fields) =
      ChamaS3ComparatorService.fields_map_of s3fd := by
    cases s3fd with
    | none => rfl
    | some a => exact collect_fields_map_drop_blank a
  have h2 : ChamaS3ComparatorService.fields_map_of
      (etlfd.map drop_blank_fields) =
      ChamaS3ComparatorService.fields_map_of etlfd := by
    cases etlfd with
    | none => rfl
    | some a => exact collect_fields_map_drop_blank a
  cases s3fd with
  | none =>
    cases etlfd with
    | none => rfl
    | some b =>
      simp only [ChamaS3ComparatorService.compare_file, Option.map_none,
        Option.map_some] at h1 h2 ⊢
      rw [h2]
      simp [drop_blank_fields]
  | some a =>
    cases etlfd with
    | none =>
      simp only [ChamaS3ComparatorService.compare_file, Option.map_none,
        Option.map_some] at h1 h2 ⊢
      rw [h1]
      simp [drop_blank_fields]
    | some b =>
      simp only [ChamaS3ComparatorService.compare_file,
        Option.map_some] at h1 h2 ⊢
      rw [h1, h2]
      simp [drop_blank_fields]

/-- C10: fields whose `from_santander` is absent, null or the empty
string are silently excluded from both lookup maps: the `comparisons`
output of the ETL-vs-Storage reconciler is unchanged when every such
field is removed from the inputs, so a blank-named field appears in none
of `fields_in_both` / `fields_only_in_s3` / `fields_only_in_etl` and
contributes zero to every per-file field count. -/
theorem claim10_blank_source_names_excluded
    (s3_files etl_files : List EtlFile) :
    (ChamaS3ComparatorService.compare_metadatas s3_files etl_files).comparisons =
      (ChamaS3ComparatorService.compare_metadatas
        (s3_files.map drop_blank_fields)
        (etl_files.map drop_blank_fields)).comparisons := by
  have hs3 : ChamaS3ComparatorService.build_files_map
      (s3_files.map drop_blank_fields) =
      (ChamaS3ComparatorService.build_files_map s3_files).map
        (fun p => (p.1, drop_blank_fields p.2)) :=
    build_files_map_map drop_blank_fields (fun _ => rfl) s3_files []
  have hetl : ChamaS3ComparatorService.build_files_map
      (etl_files.map drop_blank_fields) =
      (ChamaS3ComparatorService.build_files_map etl_files).map
        (fun p => (p.1, drop_blank_fields p.2)) :=
    build_files_map_map drop_blank_fields (fun _ => rfl) etl_files []
  simp only [ChamaS3ComparatorService.compare_metadatas, hs3, hetl,
    keysOf_map_snd]
  refine (List.map_congr_left (fun n _ => ?_)).symm
  rw [alookup_map_snd, alookup_map_snd, compare_file_drop_blank]

/-!  ## Claim C2: the three partitions are disjoint and exhaustive  -/

theorem inv_foldl_insert_field (fs : List EtlField)
    (m : List (String × ChamaS3ComparatorService.FieldInfo))
    (h : ∀ p ∈ m,
      ChamaS3ComparatorService.normalize_column_name p.2.from_santander = p.1) :
    ∀ p ∈ fs.foldl ChamaS3ComparatorService.insert_field m,
      ChamaS3ComparatorService.normalize_column_name p.2.from_santander =
        p.1 := by
  induction fs generalizing m with
  | nil => exact h
  | cons f t ih =>
    rw [List.foldl_cons]
    refine ih _ (fun p hp => ?_)
    rw [insert_field_eq_norm_key] at hp
    cases hk : norm_key f with
    | none =>
      rw [hk] at hp
      exact h p hp
    | some k =>
      rw [hk] at hp
      rcases mem_of_mem_upsert hp with hm | rfl
      · exact h p hm
      · cases hfs : f.from_santander with
        | none =>
          simp only [norm_key, hfs] at hk
          cases hk
        | some fs =>
          by_cases hempty : fs = ""
          · simp only [norm_key, hfs, if_pos hempty] at hk
            cases hk
          · simp only [norm_key, hfs, if_neg hempty] at hk
            exact Option.some.inj hk

theorem nodup_keysOf_foldl_insert_field (fs : List EtlField)
    (m : List (String × ChamaS3ComparatorService.FieldInfo))
    (h : (keysOf m).Nodup) :
    (keysOf (fs.foldl ChamaS3ComparatorService.insert_field m)).Nodup := by
  induction fs generalizing m with
  | nil => exact h
  | cons f t ih =>
    rw [List.foldl_cons]
    refine ih _ ?_
    rw [insert_field_eq_norm_key]
    cases norm_key f with
    | none => exact h
    | some k => exact nodup_keysOf_upsert k _ h

theorem inv_fields_map_of (fd : Option EtlFile) :
    ∀ p ∈ ChamaS3ComparatorService.fields_map_of fd,
      ChamaS3ComparatorService.normalize_column_name p.2.from_santander =
        p.1 := by
  cases fd with
  | none => intro p hp; cases hp
  | some f =>
    show ∀ p ∈ ChamaS3ComparatorService.collect_fields_map f.mappings, _
    rw [show ChamaS3ComparatorService.collect_fields_map f.mappings =
      f.mappings.foldl (fun m mp =>
        mp.fields.foldl ChamaS3ComparatorService.insert_field m) [] from rfl,
      collect_fields_map_eq_join]
    exact inv_foldl_insert_field _ [] (fun p hp => by cases hp)

theorem nodup_keysOf_fields_map_of (fd : Option EtlFile) :
    (keysOf (ChamaS3ComparatorService.fields_map_of fd)).Nodup := by
  cases fd with
  | none => exact List.nodup_nil
  | some f =>
    show (keysOf (ChamaS3ComparatorService.collect_fields_map
      f.mappings)).Nodup
    rw [show ChamaS3ComparatorService.collect_fields_map f.mappings =
      f.mappings.foldl (fun m mp =>
        mp.fields.foldl ChamaS3ComparatorService.insert_field m) [] from rfl,
      collect_fields_map_eq_join]
    exact nodup_keysOf_foldl_insert_field _ [] List.nodup_nil

theorem both_map_normalize
    (A B : List (String × ChamaS3ComparatorService.FieldInfo))
    (hA : ∀ p ∈ A,
      ChamaS3ComparatorService.normalize_column_name p.2.from_santander =
        p.1) :
    ((A.filterMap (fun p => (alookup B p.1).map (fun e =>
        ChamaS3ComparatorService.BothField.mk p.2.from_santander p.2.laborit
          p.2.type e.laborit e.type))).map (fun e =>
      ChamaS3ComparatorService.normalize_column_name e.from_santander)) =
      (keysOf A).filter (fun k => (alookup B k).isSome) := by
  induction A with
  | nil => rfl
  | cons p t ih =>
    rw [List.filterMap_cons]
    cases hl : alookup B p.1 with
    | none =>
      simp only [Option.map_none']
      rw [show keysOf (p :: t) = p.1 :: keysOf t from rfl,
        List.filter_cons, if_neg (by simp [hl])]
      exact ih (fun q hq => hA q (List.mem_cons_of_mem p hq))
    | some e =>
      simp only [Option.map_some']
      rw [show keysOf (p :: t) = p.1 :: keysOf t from rfl,
        List.filter_cons, if_pos (by simp [hl]), List.map_cons,
        ih (fun q hq => hA q (List.mem_cons_of_mem p hq))]
      rw [show (ChamaS3ComparatorService.BothField.mk p.2.from_santander
        p.2.laborit p.2.type e.laborit e.type).from_santander =
        p.2.from_santander from rfl, hA p (List.mem_cons_self p t)]

theorem only_map_normalize
    (A B : List (String × ChamaS3ComparatorService.FieldInfo))
    (hA : ∀ p ∈ A,
      ChamaS3ComparatorService.normalize_column_name p.2.from_santander =
        p.1) :
    (((A.filter (fun p => (alookup B p.1).isNone)).map (fun p => p.2)).map
      (fun e =>
        ChamaS3ComparatorService.normalize_column_name e.from_santander)) =
      (keysOf A).filter (fun k => (alookup B k).isNone) := by
  induction A with
  | nil => rfl
  | cons p t ih =>
    rw [List.filter_cons,
      show keysOf (p :: t) = p.1 :: keysOf t from rfl, List.filter_cons]
    by_cases hl : (alookup B p.1).isNone = true
    · rw [if_pos hl, if_pos hl, List.map_cons, List.map_cons,
        ih (fun q hq => hA q (List.mem_cons_of_mem p hq)),
        hA p (List.mem_cons_self p t)]
    · rw [if_neg hl, if_neg hl]
      exact ih (fun q hq => hA q (List.mem_cons_of_mem p hq))

theorem length_filter_add_length_filter_not {α : Type} (p : α → Bool)
    (l : List α) :
    (l.filter p).length + (l.filter (fun a => !p a)).length = l.length := by
  induction l with
  | nil => rfl
  | cons a t ih =>
    rw [List.filter_cons, List.filter_cons]
    by_cases h : p a = true
    · rw [if_pos h, if_neg (by simp [h]), List.length_cons,
        List.length_cons]
      omega
    · rw [if_neg h, if_pos (by simp [h]), List.length_cons,
        List.length_cons]
      omega

theorem length_filter_mem_eq_card_inter (KA KB : List String)
    (hA : KA.Nodup) :
    (KA.filter (fun k => decide (k ∈ KB))).length =
      (KA.toFinset ∩ KB.toFinset).card := by
  have hnd : (KA.filter (fun k => decide (k ∈ KB))).Nodup :=
    List.Nodup.filter _ hA
  rw [← List.toFinset_card_of_nodup hnd, List.toFinset_filter]
  congr 1
  ext k
  simp [Finset.mem_filter, List.mem_toFinset]

theorem length_filter_not_mem_eq_card_sdiff (KA KB : List String)
    (hA : KA.Nodup) :
    (KA.filter (fun k => !decide (k ∈ KB))).length =
      (KA.toFinset \ KB.toFinset).card := by
  have hnd : (KA.filter (fun k => !decide (k ∈ KB))).Nodup :=
    List.Nodup.filter _ hA
  rw [← List.toFinset_card_of_nodup hnd, List.toFinset_filter]
  congr 1
  ext k
  simp [Finset.mem_filter, Finset.mem_sdiff, List.mem_toFinset]

theorem isSome_alookup_eq_decide_mem {α : Type} (B : List (String × α))
    (k : String) :
    (alookup B k).isSome = decide (k ∈ keysOf B) := by
  by_cases h : k ∈ keysOf B
  · rw [(alookup_isSome_iff_mem_keysOf B k).2 h]
    simp [h]
  · rw [Bool.eq_iff_iff]
    simp [alookup_eq_none_of_not_mem h, h]

theorem isNone_alookup_eq_not_decide_mem {α : Type} (B : List (String × α))
    (k : String) :
    (alookup B k).isNone = !decide (k ∈ keysOf B) := by
  rw [← isSome_alookup_eq_decide_mem]
  cases alookup B k <;> rfl

/-- C2: for every compared file key (with arbitrary per-side file data,
which is how `compare_metadatas` invokes `compare_file` for each key of
the union), the three output lists are pairwise disjoint as sets of
normalized source names, and their three counts sum to the cardinality
of the union of the two sides' normalized field-name sets. -/
theorem claim2_partition_completeness (fn : String)
    (s3fd etlfd : Option EtlFile) :
    (((ChamaS3ComparatorService.compare_file fn s3fd etlfd).fields_in_both.map
        (fun e =>
          ChamaS3ComparatorService.normalize_column_name e.from_santander)).Disjoint
      ((ChamaS3ComparatorService.compare_file fn s3fd
          etlfd).fields_only_in_s3.map
        (fun e =>
          ChamaS3ComparatorService.normalize_column_name e.from_santander)) ∧
     ((ChamaS3ComparatorService.compare_file fn s3fd etlfd).fields_in_both.map
        (fun e =>
          ChamaS3ComparatorService.normalize_column_name e.from_santander)).Disjoint
      ((ChamaS3ComparatorService.compare_file fn s3fd
          etlfd).fields_only_in_etl.map
        (fun e =>
          ChamaS3ComparatorService.normalize_column_name e.from_santander)) ∧
     ((ChamaS3ComparatorService.compare_file fn s3fd
          etlfd).fields_only_in_s3.map
        (fun e =>
          ChamaS3ComparatorService.normalize_column_name e.from_santander)).Disjoint
      ((ChamaS3ComparatorService.compare_file fn s3fd
          etlfd).fields_only_in_etl.map
        (fun e =>
          ChamaS3ComparatorService.normalize_column_name e.from_santander))) ∧
    (ChamaS3ComparatorService.compare_file fn s3fd
        etlfd).fields_in_both_count +
      (ChamaS3ComparatorService.compare_file fn s3fd
        etlfd).fields_only_in_s3_count +
      (ChamaS3ComparatorService.compare_file fn s3fd
        etlfd).fields_only_in_etl_count =
      ((keysOf (ChamaS3ComparatorService.fields_map_of s3fd)).toFinset ∪
        (keysOf
          (ChamaS3ComparatorService.fields_map_of etlfd)).toFinset).card := by
  have hAinv := inv_fields_map_of s3fd
  have hBinv := inv_fields_map_of etlfd
  have hAnd := nodup_keysOf_fields_map_of s3fd
  have hBnd := nodup_keysOf_fields_map_of etlfd
  have e1 : (ChamaS3ComparatorService.compare_file fn s3fd
      etlfd).fields_in_both.map
      (fun e =>
        ChamaS3ComparatorService.normalize_column_name e.from_santander) =
      (keysOf (ChamaS3ComparatorService.fields_map_of s3fd)).filter
        (fun k =>
          (alookup (ChamaS3ComparatorService.fields_map_of etlfd)
            k).isSome) :=
    both_map_normalize _ _ hAinv
  have e2 : (ChamaS3ComparatorService.compare_file fn s3fd
      etlfd).fields_only_in_s3.map
      (fun e =>
        ChamaS3ComparatorService.normalize_column_name e.from_santander) =
      (keysOf (ChamaS3ComparatorService.fields_map_of s3fd)).filter
        (fun k =>
          (alookup (ChamaS3ComparatorService.fields_map_of etlfd)
            k).isNone) :=
    only_map_normalize _ _ hAinv
  have e3 : (ChamaS3ComparatorService.compare_file fn s3fd
      etlfd).fields_only_in_etl.map
      (fun e =>
        ChamaS3ComparatorService.normalize_column_name e.from_santander) =
      (keysOf (ChamaS3ComparatorService.fields_map_of etlfd)).filter
        (fun k =>
          (alookup (ChamaS3ComparatorService.fields_map_of s3fd)
            k).isNone) :=
    only_map_normalize _ _ hBinv
  refine ⟨⟨?_, ?_, ?_⟩, ?_⟩
  · rw [e1, e2, List.disjoint_left]
    intro a ha hb
    rcases List.mem_filter.1 ha with ⟨_, hsome⟩
    rcases List.mem_filter.1 hb with ⟨_, hnone⟩
    cases hv : alookup (ChamaS3ComparatorService.fields_map_of etlfd) a <;>
      rw [hv] at hsome hnone <;> simp at hsome hnone
  · rw [e1, e3, List.disjoint_left]
    intro a ha hb
    rcases List.mem_filter.1 ha with ⟨hmem, _⟩
    rcases List.mem_filter.1 hb with ⟨_, hnone⟩
    have hsome := (alookup_isSome_iff_mem_keysOf
      (ChamaS3ComparatorService.fields_map_of s3fd) a).2 hmem
    cases hv : alookup (ChamaS3ComparatorService.fields_map_of s3fd) a <;>
      rw [hv] at hsome hnone <;> simp at hsome hnone
  · rw [e2, e3, List.disjoint_left]
    intro a ha hb
    rcases List.mem_filter.1 ha with ⟨hmem, _⟩
    rcases List.mem_filter.1 hb with ⟨_, hnone⟩
    have hsome := (alookup_isSome_iff_mem_keysOf
      (ChamaS3ComparatorService.fields_map_of s3fd) a).2 hmem
    cases hv : alookup (ChamaS3ComparatorService.fields_map_of s3fd) a <;>
      rw [hv] at hsome hnone <;> simp at hsome hnone
  · have c1 : (ChamaS3ComparatorService.compare_file fn s3fd
        etlfd).fields_in_both_count =
        ((keysOf (ChamaS3ComparatorService.fields_map_of s3fd)).filter
          (fun k =>
            (alookup (ChamaS3ComparatorService.fields_map_of etlfd)
              k).isSome)).length := by
      rw [← e1, List.length_map]
      rfl
    have c2 : (ChamaS3ComparatorService.compare_file fn s3fd
        etlfd).fields_only_in_s3_count =
        ((keysOf (ChamaS3ComparatorService.fields_map_of s3fd)).filter
          (fun k =>
            (alookup (ChamaS3ComparatorService.fields_map_of etlfd)
              k).isNone)).length := by
      rw [← e2, List.length_map]
      rfl
    have c3 : (ChamaS3ComparatorService.compare_file fn s3fd
        etlfd).fields_only_in_etl_count =
        ((keysOf (ChamaS3ComparatorService.fields_map_of etlfd)).filter
          (fun k =>
            (alookup (ChamaS3ComparatorService.fields_map_of s3fd)
              k).isNone)).length := by
      rw [← e3, List.length_map]
      rfl
    rw [c1, c2, c3,
      List.filter_congr (fun k _ => isSome_alookup_eq_decide_mem
        (ChamaS3ComparatorService.fields_map_of etlfd) k),
      List.filter_congr (fun k _ => isNone_alookup_eq_not_decide_mem
        (ChamaS3ComparatorService.fields_map_of etlfd) k),
      List.filter_congr (fun k _ => isNone_alookup_eq_not_decide_mem
        (ChamaS3ComparatorService.fields_map_of s3fd) k),
      length_filter_mem_eq_card_inter _ _ hAnd,
      length_filter_not_mem_eq_card_sdiff _ _ hAnd,
      length_filter_not_mem_eq_card_sdiff _ _ hBnd]
    have h1 := Finset.card_inter_add_card_sdiff
      (keysOf (ChamaS3ComparatorService.fields_map_of s3fd)).toFinset
      (keysOf (ChamaS3ComparatorService.fields_map_of etlfd)).toFinset
    have h2 := Finset.card_sdiff_add_card
      (keysOf (ChamaS3ComparatorService.fields_map_of etlfd)).toFinset
      (keysOf (ChamaS3ComparatorService.fields_map_of s3fd)).toFinset
    rw [Finset.union_comm] at h2
    omega

/-!  ## Claim C6: one sorted comparison entry per file key of the union  -/

theorem mem_keysOf_build_files_map_aux (files : List EtlFile)
    (m : List (String × EtlFile)) (k : String) :
    k ∈ keysOf (files.foldl (fun m fd => upsert m fd.name fd) m) ↔
      k ∈ keysOf m ∨ k ∈ files.map (fun f => f.name) := by
  induction files generalizing m with
  | nil => simp
  | cons fd t ih =>
    rw [List.foldl_cons, ih, mem_keysOf_upsert, List.map_cons,
      List.mem_cons]
    constructor
    · rintro ((h | h) | h)
      · exact Or.inl h
      · exact Or.inr (Or.inl h)
      · exact Or.inr (Or.inr h)
    · rintro (h | h | h)
      · exact Or.inl (Or.inl h)
      · exact Or.inl (Or.inr h)
      · exact Or.inr h

theorem mem_keysOf_build_files_map (files : List EtlFile) (k : String) :
    k ∈ keysOf (ChamaS3ComparatorService.build_files_map files) ↔
      k ∈ files.map (fun f => f.name) := by
  rw [show ChamaS3ComparatorService.build_files_map files =
    files.foldl (fun m fd => upsert m fd.name fd) [] from rfl,
    mem_keysOf_build_files_map_aux]
  simp [keysOf]

/-- C6: the ETL-vs-Storage comparison emits exactly one entry per file
key of the union of the two documents' file-name sets — the emitted
`file_name`s are duplicate-free, lexicographically sorted, and a name
appears iff it names a file in either input — and an entry whose key is
missing from one source carries that side's counts as zero. -/
theorem claim6_one_sorted_entry_per_union_key
    (s3_files etl_files : List EtlFile) :
    ((ChamaS3ComparatorService.compare_metadatas s3_files
        etl_files).comparisons.map (fun c => c.file_name)).Nodup ∧
    List.Pairwise (fun a b => py_str_le a b = true)
      ((ChamaS3ComparatorService.compare_metadatas s3_files
        etl_files).comparisons.map (fun c => c.file_name)) ∧
    (∀ k, k ∈ (ChamaS3ComparatorService.compare_metadatas s3_files
        etl_files).comparisons.map (fun c => c.file_name) ↔
      (k ∈ s3_files.map (fun f => f.name) ∨
       k ∈ etl_files.map (fun f => f.name))) ∧
    (∀ c ∈ (ChamaS3ComparatorService.compare_metadatas s3_files
        etl_files).comparisons,
      (c.file_name ∉ s3_files.map (fun f => f.name) →
        c.has_s3_file = false ∧ c.s3_mappings_count = 0 ∧
        c.s3_fields_count = 0 ∧ c.fields_in_both_count = 0 ∧
        c.fields_only_in_s3_count = 0) ∧
      (c.file_name ∉ etl_files.map (fun f => f.name) →
        c.has_etl_file = false ∧ c.etl_mappings_count = 0 ∧
        c.etl_fields_count = 0 ∧ c.fields_in_both_count = 0 ∧
        c.fields_only_in_etl_count = 0)) := by
  have hcomp : (ChamaS3ComparatorService.compare_metadatas s3_files
      etl_files).comparisons =
      (ChamaS3ComparatorService.py_sorted
        ((keysOf (ChamaS3ComparatorService.build_files_map s3_files)) ++
          (keysOf (ChamaS3ComparatorService.build_files_map
            etl_files))).dedup).map
        (fun n => ChamaS3ComparatorService.compare_file n
          (alookup (ChamaS3ComparatorService.build_files_map s3_files) n)
          (alookup (ChamaS3ComparatorService.build_files_map etl_files)
            n)) := rfl
  have hnames : (ChamaS3ComparatorService.compare_metadatas s3_files
      etl_files).comparisons.map (fun c => c.file_name) =
      ChamaS3ComparatorService.py_sorted
        ((keysOf (ChamaS3ComparatorService.build_files_map s3_files)) ++
          (keysOf (ChamaS3ComparatorService.build_files_map
            etl_files))).dedup := by
    rw [hcomp, List.map_map]
    exact List.map_id _
  have hperm := List.perm_insertionSort (fun a b => py_str_le a b = true)
    ((keysOf (ChamaS3ComparatorService.build_files_map s3_files)) ++
      (keysOf (ChamaS3ComparatorService.build_files_map etl_files))).dedup
  refine ⟨?_, ?_, ?_, ?_⟩
  · rw [hnames]
    exact (hperm.nodup_iff).2 (List.nodup_dedup _)
  · rw [hnames]
    exact List.sorted_insertionSort _ _
  · intro k
    rw [hnames, show ChamaS3ComparatorService.py_sorted
      ((keysOf (ChamaS3ComparatorService.build_files_map s3_files)) ++
        (keysOf (ChamaS3ComparatorService.build_files_map
          etl_files))).dedup = List.insertionSort _ _ from rfl,
      hperm.mem_iff, List.mem_dedup, List.mem_append,
      mem_keysOf_build_files_map, mem_keysOf_build_files_map]
  · intro c hc
    rw [hcomp] at hc
    rcases List.mem_map.1 hc with ⟨n, _hn, rfl⟩
    constructor
    · intro hnot
      have hnone : alookup (ChamaS3ComparatorService.build_files_map
          s3_files) n = none :=
        alookup_eq_none_of_not_mem (fun hmem =>
          hnot ((mem_keysOf_build_files_map s3_files n).1 hmem))
      rw [hnone]
      exact ⟨rfl, rfl, rfl, by
        show (List.filterMap _ _).length = 0
        rfl, rfl⟩
    · intro hnot
      have hnone : alookup (ChamaS3ComparatorService.build_files_map
          etl_files) n = none :=
        alookup_eq_none_of_not_mem (fun hmem =>
          hnot ((mem_keysOf_build_files_map etl_files n).1 hmem))
      rw [hnone]
      refine ⟨rfl, rfl, rfl, ?_, rfl⟩
      show (List.filterMap _ _).length = 0
      rw [List.length_eq_zero]
      exact List.filterMap_eq_nil.2 (fun p _ => rfl)

/-!  ## Claim C4: consolidation conservation  -/

theorem forall₂_map_self {α β : Type} (R : α → β → Prop) (f : α → β)
    (l : List α) (h : ∀ x ∈ l, R x (f x)) :
    List.Forall₂ R l (l.map f) := by
  induction l with
  | nil => exact List.Forall₂.nil
  | cons a t ih =>
    exact List.Forall₂.cons (h a (List.mem_cons_self a t))
      (ih (fun x hx => h x (List.mem_cons_of_mem a hx)))

/-- C4: the consolidated document mirrors the input ETL document exactly
— same files in the same order, same mappings per file in the same
order, same fields per mapping in the same order, and every
consolidated field carries the input field's source name, internal name
and type unchanged (with the code's default read of an
absent/null value as the empty string); consolidation only adds the two
flags and the statistics blocks. -/
theorem claim4_consolidation_conservation (etl_files s3_files : List EtlFile)
    (s3_comparisons : List ChamaS3ComparatorService.ComparisonItem)
    (system_files : List ChamaETLSystemComparatorService.FileComparison) :
    List.Forall₂ (fun (ef : EtlFile)
        (cf : ChamaConsolidatedMetadataService.ConsolidatedFile) =>
      cf.name = ef.name ∧
      List.Forall₂ (fun (em : EtlMapping)
          (cm : ChamaConsolidatedMetadataService.ConsolidatedMapping) =>
        cm.map = em.map.getD "" ∧ cm.table = em.table.getD "" ∧
        List.Forall₂ (fun (fld : EtlField)
            (cfld : ChamaConsolidatedMetadataService.ConsolidatedField) =>
          cfld.from_santander = fld.from_santander.getD "" ∧
          cfld.laborit = fld.laborit.getD "" ∧
          cfld.type = fld.type.getD "") em.fields cm.fields)
        ef.mappings cf.mappings)
      etl_files
      (ChamaConsolidatedMetadataService.consolidate etl_files s3_files
        s3_comparisons system_files).files := by
  refine forall₂_map_self _ _ etl_files (fun ef _ => ⟨rfl, ?_⟩)
  refine forall₂_map_self _ _ ef.mappings (fun em _ => ⟨rfl, rfl, ?_⟩)
  exact forall₂_map_self _ _ em.fields (fun fld _ => ⟨rfl, rfl, rfl⟩)

/-!  ## Claim C8: absence of the storage inputs  -/

/-- C8 counterexample: the claim says an empty/missing
storage-comparison input forces `has_s3_file = false` for every
mapping.  On the concrete input below the storage-comparison document is
empty (`[]`), yet the storage **metadata** document contains a file
named `"a"`, and `has_s3_file` is derived from the metadata document —
so the mapping gets `has_s3_file = true` while every field correctly
gets `exists_in_s3 = false`. -/
theorem claim8_storage_absence_counterexample :
    ¬ (∀ cf ∈ (ChamaConsolidatedMetadataService.consolidate
          [EtlFile.mk "a" [EtlMapping.mk (some "m") (some "t")
            [EtlField.mk (some "x") (some "y") (some "int")]]]
          [EtlFile.mk "a" []] [] []).files,
       ∀ cm ∈ cf.mappings,
         cm.s3_comparison.has_s3_file = false ∧
         ∀ f ∈ cm.fields, f.exists_in_s3 = false) := by
  decide

/-- C8 amended: with an empty/missing storage-comparison input every
field gets `exists_in_s3 = false` and every mapping's copied
storage-comparison counts are zero (and consolidation is total, so it
completes without raising); `has_s3_file = false` for every mapping
additionally requires the storage **metadata** document to be empty or
missing, because `has_s3_file` is derived from that document, not from
the storage comparison. -/
theorem claim8_storage_absence_amended :
    (∀ (etl_files s3_files : List EtlFile)
       (system_files : List ChamaETLSystemComparatorService.FileComparison),
      ∀ cf ∈ (ChamaConsolidatedMetadataService.consolidate etl_files
        s3_files [] system_files).files,
      ∀ cm ∈ cf.mappings,
        (∀ f ∈ cm.fields, f.exists_in_s3 = false) ∧
        cm.statistics.exists_in_s3_count = 0 ∧
        cm.s3_comparison.fields_in_both_count = 0 ∧
        cm.s3_comparison.fields_only_in_s3_count = 0 ∧
        cm.s3_comparison.fields_only_in_etl_count = 0) ∧
    (∀ (etl_files : List EtlFile)
       (system_files : List ChamaETLSystemComparatorService.FileComparison),
      ∀ cf ∈ (ChamaConsolidatedMetadataService.consolidate etl_files [] []
        system_files).files,
      ∀ cm ∈ cf.mappings, cm.s3_comparison.has_s3_file = false) := by
  constructor
  · intro etl_files s3_files system_files cf hcf cm hcm
    rcases List.mem_map.1 hcf with ⟨ef, _hef, rfl⟩
    rcases List.mem_map.1 hcm with ⟨em, _hem, rfl⟩
    have hfields : ∀ f ∈ (ChamaConsolidatedMetadataService.consolidate_mapping
        (alookup (s3_files.foldl (fun m fd => upsert m fd.name fd) [])
          ef.name) (alookup ([] :
            List (String × ChamaS3ComparatorService.ComparisonItem))
          ef.name) ((alookup (system_files.foldl (fun m file_comp =>
            upsert m file_comp.file_name
              (file_comp.mappings.foldl (fun mm mapping_comp =>
                upsert mm mapping_comp.map mapping_comp) [])) [])
            ef.name).getD []) em).fields,
        f.exists_in_s3 = false := by
      intro f hf
      rcases List.mem_map.1 hf with ⟨fld, _hfld, rfl⟩
      rfl
    refine ⟨hfields, ?_, rfl, rfl, rfl⟩
    exact List.countP_eq_zero.2 (fun f hf => by
      simp [hfields f hf])
  · intro etl_files system_files cf hcf cm hcm
    rcases List.mem_map.1 hcf with ⟨ef, _hef, rfl⟩
    rcases List.mem_map.1 hcm with ⟨em, _hem, rfl⟩
    rfl

/-- C3 witnessed: the statistics identity of the usage comparison at a
concrete input (one file, one mapping, empty usage document). -/
theorem claim3_usage_flag_totality_witness :
    (ChamaETLSystemComparatorService.compare_mapping
      (ChamaFromSystemService.load_system_metadata [])
      (EtlMapping.mk (some "m") (some "t")
        [EtlField.mk (some "a") (some "x") (some "ty")])).statistics.used_count +
    (ChamaETLSystemComparatorService.compare_mapping
      (ChamaFromSystemService.load_system_metadata [])
      (EtlMapping.mk (some "m") (some "t")
        [EtlField.mk (some "a") (some "x") (some "ty")])).statistics.unused_count =
    (ChamaETLSystemComparatorService.compare_mapping
      (ChamaFromSystemService.load_system_metadata [])
      (EtlMapping.mk (some "m") (some "t")
        [EtlField.mk (some "a") (some "x") (some "ty")])).statistics.total_fields :=
  (claim3_usage_flag_totality
    [EtlFile.mk "f" [EtlMapping.mk (some "m") (some "t")
      [EtlField.mk (some "a") (some "x") (some "ty")]]] []
    (ChamaETLSystemComparatorService.FileComparison.mk "f"
      [ChamaETLSystemComparatorService.compare_mapping
        (ChamaFromSystemService.load_system_metadata [])
        (EtlMapping.mk (some "m") (some "t")
          [EtlField.mk (some "a") (some "x") (some "ty")])])
    (by decide)
    (ChamaETLSystemComparatorService.compare_mapping
      (ChamaFromSystemService.load_system_metadata [])
      (EtlMapping.mk (some "m") (some "t")
        [EtlField.mk (some "a") (some "x") (some "ty")]))
    (by decide)).2

/-- C6 witnessed at a concrete input: the file name of a file present
only on the storage side still gets a comparison entry. -/
theorem claim6_one_sorted_entry_per_union_key_witness :
    "a" ∈ (ChamaS3ComparatorService.compare_metadatas [EtlFile.mk "a" []]
      [EtlFile.mk "b" []]).comparisons.map (fun c => c.file_name) :=
  ((claim6_one_sorted_entry_per_union_key [EtlFile.mk "a" []]
    [EtlFile.mk "b" []]).2.2.1 "a").2 (Or.inl (by decide))

/-- C8 amended, witnessed at a concrete input: the storage-derived field
count of a mapping consolidated with no storage inputs is zero. -/
theorem claim8_storage_absence_amended_witness :
    (ChamaConsolidatedMetadataService.consolidate_mapping none none []
      (EtlMapping.mk (some "m") (some "t")
        [EtlField.mk (some "x") (some "y")
          (some "i")])).statistics.exists_in_s3_count = 0 :=
  (claim8_storage_absence_amended.1
    [EtlFile.mk "a" [EtlMapping.mk (some "m") (some "t")
      [EtlField.mk (some "x") (some "y") (some "i")]]] [] []
    (ChamaConsolidatedMetadataService.ConsolidatedFile.mk "a"
      [ChamaConsolidatedMetadataService.consolidate_mapping none none []
        (EtlMapping.mk (some "m") (some "t")
          [EtlField.mk (some "x") (some "y") (some "i")])])
    (by decide)
    (ChamaConsolidatedMetadataService.consolidate_mapping none none []
      (EtlMapping.mk (some "m") (some "t")
        [EtlField.mk (some "x") (some "y") (some "i")]))
    (by decide)).2.1

end LaboritEtlMapper
